import Mathlib

/-!
Shallow embedding of `src/source/PhaseShifts.c` from the repository
`yurirt94/interferometer_simulation`, together with theorems settling the
frozen claims about its single routine
`real_and_imaginary_arrays_generator`.

Modelling conventions:
* C `double` arithmetic is modelled by exact real arithmetic (`ℝ`); `M_PI`
  is the exact `Real.pi`; `cos`, `sin`, `tan`, `fabs`, `pow` become
  `Real.cos`, `Real.sin`, `Real.tan`, `abs`, `(· ^ ·)`.
* The global parameter structure `sp` of the C program becomes an explicit
  `SimulationParameters` argument.
* The caller-provided C array (accessed through `int` indices) is modelled
  as a total function `ℤ → ℝ`; the kernel only ever writes indices in
  `[0, N-1]` for valid parameters, which is proved rather than assumed.
* C `int` division (truncation toward zero) is `Int.tdiv`.
* The inner C loop `for (ex = x_min; ex < x_max; ex += step)` performs, in
  exact real arithmetic, iterations at `ex = x_min + k * step` for
  `k = 0, 1, ...` while `ex < x_max`.  For `step > 0` that is exactly
  `k < ⌈(x_max - x_min) / step⌉₊` many iterations (`numSamples` below);
  for `step ≤ 0` the C loop either runs zero times (when `x_min ≥ x_max`)
  or never terminates, and the non-terminating case is modelled as zero
  iterations.
* The local variable `phase_van_der_waals` is declared uninitialized in C
  and only assigned inside the inner loop body; it is modelled as an
  `Option ℝ` state component, `none` meaning "never assigned so far".
* The two `printf` calls are modelled as emitted pairs of the (constant)
  format string and the `Option ℝ` value handed to `printf`; the decimal
  rendering performed by `%.3e` is outside the model.
-/

namespace PhaseShifts

/-- The global parameter structure `sp` read by the kernel
(fields as used in `PhaseShifts.c`). -/
structure SimulationParameters where
  tilt_angle : ℝ
  wedge_angle : ℝ
  slit_height : ℝ
  grating_thickness : ℝ
  grating_period : ℝ
  resolution : ℝ
  particle_velocity : ℝ
  account_gravity : ℤ
  account_van_der_waals : ℤ
  number_of_rows_fourier_coefficient_array : ℤ

/-- Local constant of the kernel: `double gravity_acceleration = -9.8` (line 48). -/
def gravity_acceleration : ℝ := -9.8

/-- Local constant of the kernel: `double C3 = 2.0453e-2` (line 49). -/
def C3 : ℝ := 2.0453e-2

/-- Local constant of the kernel: `double hbar = 6.58212e-13` (line 50). -/
def hbar : ℝ := 6.58212e-13

/-- Lines 62-90: derivation of `x_min` (the two `tilt_angle` branches, the
negative branch splitting again on `fabs(tilt_angle) <= wedge_angle`). -/
noncomputable def x_min (sp : SimulationParameters) : ℝ :=
  if 0 ≤ sp.tilt_angle then
    sp.slit_height * (1 / sp.resolution - Real.cos sp.tilt_angle / 2)
  else
    if |sp.tilt_angle| ≤ sp.wedge_angle then
      -(sp.slit_height * Real.cos sp.tilt_angle / 2) + sp.slit_height / sp.resolution
    else
      -(sp.slit_height * Real.cos sp.tilt_angle / 2) + sp.slit_height / sp.resolution
        - sp.grating_thickness * (Real.tan sp.wedge_angle - Real.tan sp.tilt_angle)

/-- Lines 62-90: derivation of `x_max` (the positive `tilt_angle` branch
splitting on `tilt_angle <= wedge_angle`). -/
noncomputable def x_max (sp : SimulationParameters) : ℝ :=
  if 0 ≤ sp.tilt_angle then
    if sp.tilt_angle ≤ sp.wedge_angle then
      sp.slit_height * Real.cos sp.tilt_angle / 2 - sp.slit_height / sp.resolution
    else
      sp.slit_height * Real.cos sp.tilt_angle / 2 - sp.slit_height / sp.resolution
        + sp.grating_thickness * (Real.tan sp.wedge_angle - Real.tan sp.tilt_angle)
  else
    sp.slit_height * Real.cos sp.tilt_angle / 2 - sp.slit_height / sp.resolution

/-- Line 93: `time_free_fall = current_z_position / sp.particle_velocity`. -/
noncomputable def time_free_fall (sp : SimulationParameters) (current_z_position : ℝ) : ℝ :=
  current_z_position / sp.particle_velocity

/-- Lines 99-103: the gravitational phase,
`2 * M_PI * gravity_acceleration * pow(time_free_fall, 2) / sp.grating_period`
when `sp.account_gravity == 1`, else `0`. -/
noncomputable def phase_gravity (sp : SimulationParameters) (current_z_position : ℝ) : ℝ :=
  if sp.account_gravity = 1 then
    2 * Real.pi * gravity_acceleration * time_free_fall sp current_z_position ^ 2
      / sp.grating_period
  else 0

/-- Line 108: `distance_to_lower_side = fabs(ex) * 1.0e9`. -/
def distance_to_lower_side (ex : ℝ) : ℝ := |ex| * 1.0e9

/-- Line 109: `distance_to_upper_side = fabs(x_max - ex) * 1.0e9`. -/
def distance_to_upper_side (xmax ex : ℝ) : ℝ := |xmax - ex| * 1.0e9

/-- Line 111: the geometric diffraction phase
`fc = 2 * M_PI * n * ex / sp.grating_period`. -/
noncomputable def fc (sp : SimulationParameters) (n : ℤ) (ex : ℝ) : ℝ :=
  2 * Real.pi * n * ex / sp.grating_period

/-- Lines 113-119: the Van der Waals phase assigned to the local variable
`phase_van_der_waals` at sample position `ex`: `0` when the flag is off or
either wall distance is exactly zero, otherwise the two-wall `1/r^3` sum. -/
noncomputable def phase_van_der_waals_value (sp : SimulationParameters) (xmax ex : ℝ) : ℝ :=
  if sp.account_van_der_waals = 0 ∨ distance_to_lower_side ex = 0
      ∨ distance_to_upper_side xmax ex = 0 then
    0
  else
    -C3 * sp.grating_thickness
        / (hbar * sp.particle_velocity * distance_to_lower_side ex ^ 3)
      - C3 * sp.grating_thickness
        / (hbar * sp.particle_velocity * distance_to_upper_side xmax ex ^ 3)

/-- Line 122: `j = n + ((sp.number_of_rows_fourier_coefficient_array-1)/2)`,
with C `int` division (truncation toward zero, `Int.tdiv`). -/
def orderIndex (N n : ℤ) : ℤ := n + Int.tdiv (N - 1) 2

/-- Pointwise update of the modelled caller array. -/
def updateArr (a : ℤ → ℝ) (j : ℤ) (v : ℝ) : ℤ → ℝ :=
  fun i => if i = j then v else a i

/-- The mutable state threaded through the loops: the caller array and the
local variable `phase_van_der_waals` (line 56, declared without an
initializer; `none` models "not yet assigned"). -/
structure GenState where
  array : ℤ → ℝ
  phase_van_der_waals : Option ℝ

/-- Lines 106-132, body of the inner loop at order `n` and sample position
`ex`: compute the wall distances, `fc` and the Van der Waals phase, then
accumulate `cos` (mode `1`) or `sin` (mode `2`) of the summed phases into
slot `j`; any other mode accumulates nothing.  The local variable
`phase_van_der_waals` is assigned in every iteration regardless of mode. -/
noncomputable def innerBody (sp : SimulationParameters) (real_or_imaginary : ℤ)
    (pg xmax : ℝ) (n : ℤ) (ex : ℝ) (s : GenState) : GenState :=
  let pvdw := phase_van_der_waals_value sp xmax ex
  let j := orderIndex sp.number_of_rows_fourier_coefficient_array n
  if real_or_imaginary = 1 then
    ⟨updateArr s.array j (s.array j + Real.cos (pvdw + fc sp n ex + pg)), some pvdw⟩
  else if real_or_imaginary = 2 then
    ⟨updateArr s.array j (s.array j + Real.sin (pvdw + fc sp n ex + pg)), some pvdw⟩
  else
    ⟨s.array, some pvdw⟩

/-- Line 106: the loop increment `sp.slit_height / sp.resolution`. -/
noncomputable def sampleStep (sp : SimulationParameters) : ℝ :=
  sp.slit_height / sp.resolution

/-- Trip count of the inner loop
`for (ex = x_min; ex < x_max; ex += sampleStep)` in exact real arithmetic:
for a positive step the loop body runs exactly
`⌈(x_max - x_min) / step⌉₊` times; for a nonpositive step it runs zero
times when `x_min ≥ x_max` (and fails to terminate otherwise, modelled
here as zero iterations — see the file header). -/
noncomputable def numSamples (sp : SimulationParameters) : ℕ :=
  if 0 < sampleStep sp then Nat.ceil ((x_max sp - x_min sp) / sampleStep sp) else 0

/-- The value of the loop variable `ex` at the `k`-th inner iteration. -/
noncomputable def samplePos (sp : SimulationParameters) (k : ℕ) : ℝ :=
  x_min sp + k * sampleStep sp

/-- Lines 106-132: the whole inner loop over sample positions at a fixed
diffraction order `n`. -/
noncomputable def innerLoop (sp : SimulationParameters) (real_or_imaginary : ℤ)
    (pg : ℝ) (n : ℤ) (s : GenState) : GenState :=
  (List.range (numSamples sp)).foldl
    (fun t k => innerBody sp real_or_imaginary pg (x_max sp) n (samplePos sp k) t) s

/-- The list of values taken by a C loop `for (v = a; v <= b; v++)`. -/
def intRange (a b : ℤ) : List ℤ :=
  (List.range (b + 1 - a).toNat).map fun k : ℕ => a + (k : ℤ)

/-- Line 105: the outer loop runs `n` from
`-((N-1)/2)` to `(N-1)/2` inclusive (C `int` division). -/
def ordersList (N : ℤ) : List ℤ :=
  intRange (-(Int.tdiv (N - 1) 2)) (Int.tdiv (N - 1) 2)

/-- Lines 105-133: the double summation loop. -/
noncomputable def doubleLoop (sp : SimulationParameters) (real_or_imaginary : ℤ)
    (pg : ℝ) (s : GenState) : GenState :=
  (ordersList sp.number_of_rows_fourier_coefficient_array).foldl
    (fun t n => innerLoop sp real_or_imaginary pg n t) s

/-- Lines 135-137: the normalization loop dividing slots `0..N-1` by
`sp.resolution`. -/
noncomputable def normalize (sp : SimulationParameters) (a : ℤ → ℝ) : ℤ → ℝ :=
  (intRange 0 (sp.number_of_rows_fourier_coefficient_array - 1)).foldl
    (fun b i => updateArr b i (b i / sp.resolution)) a

/-- Line 141 format string. -/
def gravity_line : String := "Gravitational phase shift: %.3e rad"

/-- Line 142 format string. -/
def vdw_line : String := "Van der Waals phase shift: %.3e rad"

/-- Result of one call: the mutated array, the diagnostic lines written to
standard output (format string paired with the value handed to `printf`;
`none` marks a read of the never-assigned local), and the final values of
the two phase locals. -/
structure GenResult where
  array : ℤ → ℝ
  printed : List (String × Option ℝ)
  phase_gravity_out : ℝ
  phase_van_der_waals_out : Option ℝ

/-- Lines 46-144: the whole routine `real_and_imaginary_arrays_generator`.
It derives the bounds and the gravitational phase, runs the double
summation accumulating into the caller array, divides slots `0..N-1` by
`sp.resolution`, and, only when `real_or_imaginary == 1`, prints the two
diagnostic lines with the final values of the phase locals. -/
noncomputable def real_and_imaginary_arrays_generator
    (real_or_imaginary_array : ℤ → ℝ) (real_or_imaginary : ℤ)
    (current_z_position : ℝ) (sp : SimulationParameters) : GenResult :=
  let pg := phase_gravity sp current_z_position
  let s := doubleLoop sp real_or_imaginary pg ⟨real_or_imaginary_array, none⟩
  let arr := normalize sp s.array
  let printed :=
    if real_or_imaginary = 1 then
      [(gravity_line, some pg), (vdw_line, s.phase_van_der_waals)]
    else []
  ⟨arr, printed, pg, s.phase_van_der_waals⟩

/-- Written from the words of the specification, for comparison with the
kernel: the claimed value of slot `n + (N-1)/2` after a REAL-mode call on a
zero-initialized array — the sum over the sample positions
`ex = x_min, x_min + step, ...` (while `ex < x_max`, `step =
slit_height/resolution`) of
`cos(phase_vdw(ex) + 2*pi*n*ex/grating_period + phase_gravity)`, divided by
`resolution`. -/
noncomputable def claimed_slot_real (sp : SimulationParameters) (z : ℝ) (n : ℤ) : ℝ :=
  (∑ k ∈ Finset.range (numSamples sp),
      Real.cos (phase_van_der_waals_value sp (x_max sp) (samplePos sp k)
        + 2 * Real.pi * n * samplePos sp k / sp.grating_period
        + phase_gravity sp z)) / sp.resolution

/-- Written from the words of the specification: as `claimed_slot_real`
with `sin` in place of `cos` (IMAGINARY mode). -/
noncomputable def claimed_slot_imag (sp : SimulationParameters) (z : ℝ) (n : ℤ) : ℝ :=
  (∑ k ∈ Finset.range (numSamples sp),
      Real.sin (phase_van_der_waals_value sp (x_max sp) (samplePos sp k)
        + 2 * Real.pi * n * samplePos sp k / sp.grating_period
        + phase_gravity sp z)) / sp.resolution

/-- Concrete parameter bundle used by witnesses: zero tilt and wedge,
slit height 4, resolution 4, everything else unit-sized, both physical
corrections off, N = 3.  Its derived bounds are `x_min = -1`, `x_max = 1`
with step `1`, so the inner loop runs twice. -/
def spA : SimulationParameters := ⟨0, 0, 4, 1, 1, 4, 1, 0, 0, 3⟩

/-- Concrete parameter bundle with a degenerate sampling range, used by
witnesses: resolution 1 makes `x_min = 1 > -1 = x_max`, so the inner loop
never runs. -/
def spB : SimulationParameters := ⟨0, 0, 2, 1, 1, 1, 1, 0, 0, 1⟩

/-- C `int` division by 2 agrees with Lean integer division on nonnegative
dividends. -/
lemma tdiv_two_nonneg {a : ℤ} (h : 0 ≤ a) : Int.tdiv a 2 = a / 2 := by
  obtain ⟨n, rfl⟩ := Int.eq_ofNat_of_zero_le h
  rfl

lemma mem_intRange {a b i : ℤ} : i ∈ intRange a b ↔ a ≤ i ∧ i ≤ b := by
  unfold intRange
  simp only [List.mem_map, List.mem_range]
  constructor
  · rintro ⟨k, hk, hk2⟩
    omega
  · rintro ⟨h1, h2⟩
    refine ⟨(i - a).toNat, ?_, ?_⟩ <;> omega

lemma nodup_intRange (a b : ℤ) : (intRange a b).Nodup := by
  unfold intRange
  refine List.Nodup.map ?_ (List.nodup_range _)
  intro x y h
  simp only [add_right_inj, Nat.cast_inj] at h
  exact h

/-- C5: for every odd N ≥ 1 the index map `j = n + (N-1)/2` of line 122 is
a bijection from the diffraction orders `[-(N-1)/2, (N-1)/2]` onto the
array indices `[0, N-1]`: every order lands in `[0, N-1]`, distinct orders
land on distinct indices, and every index is hit. -/
theorem claim_C5_orderIndex_bijection (N : ℤ) (hodd : Odd N) (h1 : 1 ≤ N) :
    (∀ n : ℤ, -(Int.tdiv (N - 1) 2) ≤ n → n ≤ Int.tdiv (N - 1) 2 →
      0 ≤ orderIndex N n ∧ orderIndex N n ≤ N - 1) ∧
    (∀ n m : ℤ, orderIndex N n = orderIndex N m → n = m) ∧
    (∀ j : ℤ, 0 ≤ j → j ≤ N - 1 →
      ∃ n : ℤ, -(Int.tdiv (N - 1) 2) ≤ n ∧ n ≤ Int.tdiv (N - 1) 2 ∧ orderIndex N n = j) := by
  obtain ⟨m, rfl⟩ := hodd
  have hm : Int.tdiv (2 * m + 1 - 1) 2 = m := by
    rw [tdiv_two_nonneg (by omega)]
    omega
  simp only [orderIndex, hm]
  exact ⟨fun n hlo hhi => ⟨by omega, by omega⟩,
    fun n k h => by omega,
    fun j hj0 hj1 => ⟨j - m, by omega, by omega, by omega⟩⟩

/-- Witness for C5 at N = 3. -/
theorem claim_C5_witness :
    (∀ n : ℤ, -(Int.tdiv (3 - 1) 2) ≤ n → n ≤ Int.tdiv (3 - 1) 2 →
      0 ≤ orderIndex 3 n ∧ orderIndex 3 n ≤ 3 - 1) ∧
    (∀ n m : ℤ, orderIndex 3 n = orderIndex 3 m → n = m) ∧
    (∀ j : ℤ, 0 ≤ j → j ≤ 3 - 1 →
      ∃ n : ℤ, -(Int.tdiv (3 - 1) 2) ≤ n ∧ n ≤ Int.tdiv (3 - 1) 2 ∧ orderIndex 3 n = j) :=
  claim_C5_orderIndex_bijection 3 ⟨1, by norm_num⟩ (by norm_num)

/-- C2: the four-way derivation of the integration bounds `x_min`, `x_max`
from lines 62-90, branch by branch. -/
theorem claim_C2_integration_bounds (sp : SimulationParameters) :
    (0 ≤ sp.tilt_angle →
      x_min sp = sp.slit_height * (1 / sp.resolution - Real.cos sp.tilt_angle / 2) ∧
      (sp.tilt_angle ≤ sp.wedge_angle →
        x_max sp = sp.slit_height * Real.cos sp.tilt_angle / 2
          - sp.slit_height / sp.resolution) ∧
      (¬ sp.tilt_angle ≤ sp.wedge_angle →
        x_max sp = sp.slit_height * Real.cos sp.tilt_angle / 2
          - sp.slit_height / sp.resolution
          + sp.grating_thickness * (Real.tan sp.wedge_angle - Real.tan sp.tilt_angle))) ∧
    (sp.tilt_angle < 0 →
      x_max sp = sp.slit_height * Real.cos sp.tilt_angle / 2
        - sp.slit_height / sp.resolution ∧
      (|sp.tilt_angle| ≤ sp.wedge_angle →
        x_min sp = -(sp.slit_height * Real.cos sp.tilt_angle / 2)
          + sp.slit_height / sp.resolution) ∧
      (¬ |sp.tilt_angle| ≤ sp.wedge_angle →
        x_min sp = -(sp.slit_height * Real.cos sp.tilt_angle / 2)
          + sp.slit_height / sp.resolution
          - sp.grating_thickness * (Real.tan sp.wedge_angle - Real.tan sp.tilt_angle))) := by
  constructor
  · intro h
    exact ⟨by simp [x_min, h], fun h2 => by simp [x_max, h, h2],
      fun h2 => by simp [x_max, h, h2]⟩
  · intro h
    have h' : ¬ 0 ≤ sp.tilt_angle := not_le.mpr h
    exact ⟨by simp [x_max, h'], fun h2 => by simp [x_min, h', h2],
      fun h2 => by simp [x_min, h', h2]⟩

/-- Witness for C2 at the concrete bundle `spA` (nonnegative tilt,
nearly-normal branch). -/
theorem claim_C2_witness :
    x_min spA = spA.slit_height * (1 / spA.resolution - Real.cos spA.tilt_angle / 2) ∧
    x_max spA = spA.slit_height * Real.cos spA.tilt_angle / 2
      - spA.slit_height / spA.resolution :=
  ⟨((claim_C2_integration_bounds spA).1 (by norm_num [spA])).1,
    ((claim_C2_integration_bounds spA).1 (by norm_num [spA])).2.1 (by norm_num [spA])⟩

/-- C3: the gravitational phase of a call is
`2*pi*(-9.8)*(z/velocity)^2/grating_period` when the flag equals one, else
`0`, and it is the one scalar the call carries (the generator output
component records it, independent of sample position and order). -/
theorem claim_C3_phase_gravity (sp : SimulationParameters) (z : ℝ)
    (hv : sp.particle_velocity ≠ 0) (hp : sp.grating_period ≠ 0) :
    (sp.account_gravity = 1 →
      phase_gravity sp z
        = 2 * Real.pi * (-9.8) * (z / sp.particle_velocity) ^ 2 / sp.grating_period) ∧
    (sp.account_gravity ≠ 1 → phase_gravity sp z = 0) ∧
    (∀ (a : ℤ → ℝ) (mode : ℤ),
      (real_and_imaginary_arrays_generator a mode z sp).phase_gravity_out
        = phase_gravity sp z) := by
  refine ⟨fun h => ?_, fun h => ?_, fun a mode => rfl⟩
  · simp [phase_gravity, h, gravity_acceleration, time_free_fall]
  · simp [phase_gravity, h]

/-- Witness for C3 at the concrete bundle `spA` (gravity flag off). -/
theorem claim_C3_witness : phase_gravity spA 5 = 0 :=
  (claim_C3_phase_gravity spA 5 (by norm_num [spA]) (by norm_num [spA])).2.1
    (by norm_num [spA])

/-- C4: the Van der Waals phase at a sample position is zero when the flag
is off or either wall distance is exactly zero, and otherwise is the
two-wall `1/r^3` formula with the fixed constants; in the formula branch
both cubed distances are nonzero, so the `1/r^3` division never has a zero
distance cube in its denominator. -/
theorem claim_C4_van_der_waals (sp : SimulationParameters) (ex : ℝ) :
    C3 = 2.0453e-2 ∧ hbar = 6.58212e-13 ∧
    ((sp.account_van_der_waals = 0 ∨ distance_to_lower_side ex = 0
        ∨ distance_to_upper_side (x_max sp) ex = 0) →
      phase_van_der_waals_value sp (x_max sp) ex = 0) ∧
    (¬ (sp.account_van_der_waals = 0 ∨ distance_to_lower_side ex = 0
        ∨ distance_to_upper_side (x_max sp) ex = 0) →
      phase_van_der_waals_value sp (x_max sp) ex
          = -C3 * sp.grating_thickness
              / (hbar * sp.particle_velocity * distance_to_lower_side ex ^ 3)
            - C3 * sp.grating_thickness
              / (hbar * sp.particle_velocity * distance_to_upper_side (x_max sp) ex ^ 3)
        ∧ distance_to_lower_side ex ^ 3 ≠ 0
        ∧ distance_to_upper_side (x_max sp) ex ^ 3 ≠ 0) := by
  refine ⟨rfl, rfl, fun h => ?_, fun h => ?_⟩
  · rw [phase_van_der_waals_value, if_pos h]
  · push_neg at h
    exact ⟨by rw [phase_van_der_waals_value, if_neg (by push_neg; exact h)],
      pow_ne_zero 3 h.2.1, pow_ne_zero 3 h.2.2⟩

/-- Witness for C4 at the concrete bundle `spA` and a sample position
sitting exactly on the lower wall. -/
theorem claim_C4_witness : phase_van_der_waals_value spA (x_max spA) 0 = 0 :=
  (claim_C4_van_der_waals spA 0).2.2.1
    (Or.inr (Or.inl (by norm_num [distance_to_lower_side])))

/-- C8: with zero tilt (and nonnegative wedge angle, so the nearly-normal
branch is taken) the derived bounds are symmetric: their sum is exactly
zero, hence within every positive tolerance. -/
theorem claim_C8_symmetric_bounds (sp : SimulationParameters)
    (ht : sp.tilt_angle = 0) (hw : 0 ≤ sp.wedge_angle) (hres : 0 < sp.resolution) :
    x_max sp + x_min sp = 0 ∧ ∀ ε : ℝ, 0 < ε → |x_max sp + x_min sp| < ε := by
  have hsum : x_max sp + x_min sp = 0 := by
    simp only [x_max, x_min, ht, Real.cos_zero, le_refl, hw, if_true]
    ring
  exact ⟨hsum, fun ε hε => by rw [hsum, abs_zero]; exact hε⟩

/-- Witness for C8 at the concrete bundle `spA`. -/
theorem claim_C8_witness :
    x_max spA + x_min spA = 0 ∧ ∀ ε : ℝ, 0 < ε → |x_max spA + x_min spA| < ε :=
  claim_C8_symmetric_bounds spA (by norm_num [spA]) (by norm_num [spA]) (by norm_num [spA])

lemma updateArr_apply (a : ℤ → ℝ) (j i : ℤ) (v : ℝ) :
    updateArr a j v i = if i = j then v else a i := rfl

/-- The trigonometric accumulator selected by the mode flag. -/
noncomputable def trigOf (mode : ℤ) : ℝ → ℝ :=
  if mode = 1 then Real.cos else Real.sin

/-- The total phase of the accumulation term at order `n` and the `k`-th
sample position. -/
noncomputable def termPhase (sp : SimulationParameters) (pg : ℝ) (n : ℤ) (k : ℕ) : ℝ :=
  phase_van_der_waals_value sp (x_max sp) (samplePos sp k)
    + fc sp n (samplePos sp k) + pg

/-- The raw (pre-normalization) contribution of one diffraction order. -/
noncomputable def innerOrderSum (sp : SimulationParameters) (mode : ℤ) (pg : ℝ) (n : ℤ) : ℝ :=
  ∑ k ∈ Finset.range (numSamples sp), trigOf mode (termPhase sp pg n k)

lemma innerBody_array_acc {mode : ℤ} (hmode : mode = 1 ∨ mode = 2)
    (sp : SimulationParameters) (pg xmax : ℝ) (n : ℤ) (ex : ℝ) (s : GenState) :
    (innerBody sp mode pg xmax n ex s).array
      = updateArr s.array (orderIndex sp.number_of_rows_fourier_coefficient_array n)
          (s.array (orderIndex sp.number_of_rows_fourier_coefficient_array n)
            + trigOf mode (phase_van_der_waals_value sp xmax ex + fc sp n ex + pg)) := by
  rcases hmode with rfl | rfl
  · norm_num [innerBody, trigOf]
  · norm_num [innerBody, trigOf]

lemma innerBody_array_other {mode : ℤ} (h1 : mode ≠ 1) (h2 : mode ≠ 2)
    (sp : SimulationParameters) (pg xmax : ℝ) (n : ℤ) (ex : ℝ) (s : GenState) :
    (innerBody sp mode pg xmax n ex s).array = s.array := by
  simp [innerBody, h1, h2]

lemma innerBody_vdw (sp : SimulationParameters) (mode : ℤ) (pg xmax : ℝ) (n : ℤ)
    (ex : ℝ) (s : GenState) :
    (innerBody sp mode pg xmax n ex s).phase_van_der_waals
      = some (phase_van_der_waals_value sp xmax ex) := by
  unfold innerBody
  split_ifs <;> rfl

lemma innerFold_array {mode : ℤ} (hmode : mode = 1 ∨ mode = 2)
    (sp : SimulationParameters) (pg : ℝ) (n : ℤ) :
    ∀ (m : ℕ) (s : GenState) (i : ℤ),
      ((List.range m).foldl
          (fun t k => innerBody sp mode pg (x_max sp) n (samplePos sp k) t) s).array i
        = if i = orderIndex sp.number_of_rows_fourier_coefficient_array n then
            s.array i + ∑ k ∈ Finset.range m, trigOf mode (termPhase sp pg n k)
          else s.array i := by
  intro m
  induction m with
  | zero =>
    intro s i
    simp
  | succ m ih =>
    intro s i
    rw [List.range_succ, List.foldl_append]
    simp only [List.foldl_cons, List.foldl_nil]
    rw [innerBody_array_acc hmode, updateArr_apply]
    simp only [ih]
    by_cases hi : i = orderIndex sp.number_of_rows_fourier_coefficient_array n
    · simp only [hi, if_pos rfl, eq_self_iff_true, if_true, Finset.sum_range_succ, termPhase]
      ring
    · simp only [if_neg hi]

lemma innerFold_array_other {mode : ℤ} (h1 : mode ≠ 1) (h2 : mode ≠ 2)
    (sp : SimulationParameters) (pg : ℝ) (n : ℤ) :
    ∀ (m : ℕ) (s : GenState),
      ((List.range m).foldl
          (fun t k => innerBody sp mode pg (x_max sp) n (samplePos sp k) t) s).array
        = s.array := by
  intro m
  induction m with
  | zero =>
    intro s
    rfl
  | succ m ih =>
    intro s
    rw [List.range_succ, List.foldl_append]
    simp only [List.foldl_cons, List.foldl_nil]
    rw [innerBody_array_other h1 h2, ih]

lemma innerFold_vdw (sp : SimulationParameters) (mode : ℤ) (pg : ℝ) (n : ℤ)
    (m : ℕ) (s : GenState) (hm : 0 < m) :
    ((List.range m).foldl
        (fun t k => innerBody sp mode pg (x_max sp) n (samplePos sp k) t) s).phase_van_der_waals
      = some (phase_van_der_waals_value sp (x_max sp) (samplePos sp (m - 1))) := by
  cases m with
  | zero => omega
  | succ m =>
    rw [List.range_succ, List.foldl_append]
    simp only [List.foldl_cons, List.foldl_nil]
    rw [innerBody_vdw]
    simp

lemma innerLoop_array {mode : ℤ} (hmode : mode = 1 ∨ mode = 2)
    (sp : SimulationParameters) (pg : ℝ) (n : ℤ) (s : GenState) (i : ℤ) :
    (innerLoop sp mode pg n s).array i
      = if i = orderIndex sp.number_of_rows_fourier_coefficient_array n then
          s.array i + innerOrderSum sp mode pg n
        else s.array i :=
  innerFold_array hmode sp pg n (numSamples sp) s i

lemma innerLoop_id (sp : SimulationParameters) (h0 : numSamples sp = 0)
    (mode : ℤ) (pg : ℝ) (n : ℤ) (s : GenState) :
    innerLoop sp mode pg n s = s := by
  unfold innerLoop
  rw [h0]
  rfl

lemma orderFold_array {mode : ℤ} (hmode : mode = 1 ∨ mode = 2)
    (sp : SimulationParameters) (pg : ℝ) :
    ∀ (l : List ℤ) (s : GenState) (i : ℤ),
      ((l.foldl (fun t n => innerLoop sp mode pg n t) s).array) i
        = s.array i
          + (l.map fun n =>
              if orderIndex sp.number_of_rows_fourier_coefficient_array n = i then
                innerOrderSum sp mode pg n
              else 0).sum := by
  intro l
  induction l with
  | nil =>
    intro s i
    simp
  | cons n l ih =>
    intro s i
    simp only [List.foldl_cons, List.map_cons, List.sum_cons]
    rw [ih, innerLoop_array hmode]
    by_cases hi : i = orderIndex sp.number_of_rows_fourier_coefficient_array n
    · rw [if_pos hi, if_pos hi.symm]
      ring
    · rw [if_neg hi, if_neg fun h => hi h.symm]
      ring

lemma orderFold_array_other {mode : ℤ} (h1 : mode ≠ 1) (h2 : mode ≠ 2)
    (sp : SimulationParameters) (pg : ℝ) :
    ∀ (l : List ℤ) (s : GenState),
      (l.foldl (fun t n => innerLoop sp mode pg n t) s).array = s.array := by
  intro l
  induction l with
  | nil =>
    intro s
    rfl
  | cons n l ih =>
    intro s
    rw [List.foldl_cons, ih]
    exact innerFold_array_other h1 h2 sp pg n (numSamples sp) s

lemma orderFold_vdw (sp : SimulationParameters) {mode : ℤ} (pg : ℝ)
    (hpos : 0 < numSamples sp) :
    ∀ (l : List ℤ) (s : GenState), l ≠ [] →
      (l.foldl (fun t n => innerLoop sp mode pg n t) s).phase_van_der_waals
        = some (phase_van_der_waals_value sp (x_max sp)
            (samplePos sp (numSamples sp - 1))) := by
  intro l
  induction l with
  | nil =>
    intro s h
    exact absurd rfl h
  | cons n l ih =>
    intro s _
    cases l with
    | nil =>
      simp only [List.foldl_cons, List.foldl_nil]
      exact innerFold_vdw sp mode pg n (numSamples sp) s hpos
    | cons n2 l2 =>
      simp only [List.foldl_cons]
      exact ih _ (by simp)

lemma numSamples_eq_zero (sp : SimulationParameters) (hx : x_max sp ≤ x_min sp) :
    numSamples sp = 0 := by
  unfold numSamples
  split_ifs with h
  · refine Nat.ceil_eq_zero.mpr (div_nonpos_iff.mpr (Or.inr ⟨by linarith, h.le⟩))
  · rfl

lemma doubleLoop_id (sp : SimulationParameters) (h0 : numSamples sp = 0)
    (mode : ℤ) (pg : ℝ) (s : GenState) :
    doubleLoop sp mode pg s = s := by
  unfold doubleLoop
  generalize ordersList sp.number_of_rows_fourier_coefficient_array = l
  induction l generalizing s with
  | nil => rfl
  | cons n l ih =>
    rw [List.foldl_cons, innerLoop_id sp h0]
    exact ih s

lemma ordersList_ne_nil (N : ℤ) (h1 : 1 ≤ N) : ordersList N ≠ [] := by
  have hlen : (ordersList N).length
      = ((Int.tdiv (N - 1) 2 + 1) - -(Int.tdiv (N - 1) 2)).toNat := by
    simp [ordersList, intRange]
  have hT : 0 ≤ Int.tdiv (N - 1) 2 := by
    rw [tdiv_two_nonneg (by omega)]
    omega
  have : 0 < (ordersList N).length := by
    rw [hlen]
    omega
  exact List.length_pos.mp this

lemma doubleLoop_vdw (sp : SimulationParameters) {mode : ℤ} (pg : ℝ)
    (hpos : 0 < numSamples sp)
    (hN : 1 ≤ sp.number_of_rows_fourier_coefficient_array) (s : GenState) :
    (doubleLoop sp mode pg s).phase_van_der_waals
      = some (phase_van_der_waals_value sp (x_max sp)
          (samplePos sp (numSamples sp - 1))) :=
  orderFold_vdw sp pg hpos _ s (ordersList_ne_nil _ hN)

lemma normFold (r : ℝ) :
    ∀ (l : List ℤ), l.Nodup → ∀ (a : ℤ → ℝ) (i : ℤ),
      (l.foldl (fun b j => updateArr b j (b j / r)) a) i
        = if i ∈ l then a i / r else a i := by
  intro l
  induction l with
  | nil =>
    intro _ a i
    simp
  | cons j l ih =>
    intro hnd a i
    simp only [List.foldl_cons]
    rw [ih (List.Nodup.of_cons hnd)]
    by_cases hi : i ∈ l
    · have hij : i ≠ j := fun h => (List.nodup_cons.mp hnd).1 (h ▸ hi)
      rw [if_pos hi, updateArr_apply, if_neg hij, if_pos (List.mem_cons_of_mem _ hi)]
    · by_cases hij : i = j
      · rw [if_neg hi, updateArr_apply, if_pos hij, if_pos (by simp [hij]), hij]
      · rw [if_neg hi, updateArr_apply, if_neg hij, if_neg (by simp [hij, hi])]

lemma normalize_apply (sp : SimulationParameters) (a : ℤ → ℝ) (i : ℤ) :
    normalize sp a i
      = if 0 ≤ i ∧ i ≤ sp.number_of_rows_fourier_coefficient_array - 1 then
          a i / sp.resolution
        else a i := by
  unfold normalize
  rw [normFold sp.resolution _ (nodup_intRange _ _)]
  simp [mem_intRange]

lemma sum_map_ite_eq (l : List ℤ) (hnd : l.Nodup) {n0 : ℤ} (hmem : n0 ∈ l)
    (f : ℤ → ℝ) (c : ℤ) :
    (l.map fun n => if n + c = n0 + c then f n else 0).sum = f n0 := by
  simp only [add_left_inj]
  rw [← List.sum_toFinset _ hnd, Finset.sum_ite_eq' l.toFinset n0 f,
    if_pos (List.mem_toFinset.mpr hmem)]

lemma generator_slot {mode : ℤ} (hmode : mode = 1 ∨ mode = 2)
    (sp : SimulationParameters) (z : ℝ) (n : ℤ)
    (h1 : 1 ≤ sp.number_of_rows_fourier_coefficient_array)
    (hlo : -(Int.tdiv (sp.number_of_rows_fourier_coefficient_array - 1) 2) ≤ n)
    (hhi : n ≤ Int.tdiv (sp.number_of_rows_fourier_coefficient_array - 1) 2) :
    (real_and_imaginary_arrays_generator (fun _ => 0) mode z sp).array
        (orderIndex sp.number_of_rows_fourier_coefficient_array n)
      = innerOrderSum sp mode (phase_gravity sp z) n / sp.resolution := by
  have hT : Int.tdiv (sp.number_of_rows_fourier_coefficient_array - 1) 2
      = (sp.number_of_rows_fourier_coefficient_array - 1) / 2 :=
    tdiv_two_nonneg (by omega)
  have hbounds : 0 ≤ orderIndex sp.number_of_rows_fourier_coefficient_array n
      ∧ orderIndex sp.number_of_rows_fourier_coefficient_array n
        ≤ sp.number_of_rows_fourier_coefficient_array - 1 := by
    unfold orderIndex
    omega
  have hmem : n ∈ ordersList sp.number_of_rows_fourier_coefficient_array :=
    mem_intRange.mpr ⟨hlo, hhi⟩
  show normalize sp
      (doubleLoop sp mode (phase_gravity sp z) ⟨fun _ => 0, none⟩).array _ = _
  rw [normalize_apply, if_pos hbounds]
  unfold doubleLoop
  rw [orderFold_array hmode]
  show (0 + _) / sp.resolution = _
  rw [zero_add]
  congr 1
  have := sum_map_ite_eq (ordersList sp.number_of_rows_fourier_coefficient_array)
    (nodup_intRange _ _) hmem
    (innerOrderSum sp mode (phase_gravity sp z))
    (Int.tdiv (sp.number_of_rows_fourier_coefficient_array - 1) 2)
  simp only [orderIndex]
  exact this

/-- C1: for odd `N ≥ 1`, positive resolution and nonzero velocity and
grating period, calling the kernel on a zero-initialized array leaves in
slot `j = n + (N-1)/2` (for each order `n` in `[-(N-1)/2, (N-1)/2]`)
exactly the sum over the sample positions of
`cos(phase_vdw + 2*pi*n*ex/grating_period + phase_gravity)` divided by the
resolution in REAL mode, and the same with `sin` in IMAGINARY mode. -/
theorem claim_C1_slot_values (sp : SimulationParameters) (z : ℝ) (n : ℤ)
    (hodd : Odd sp.number_of_rows_fourier_coefficient_array)
    (h1 : 1 ≤ sp.number_of_rows_fourier_coefficient_array)
    (hres : 0 < sp.resolution)
    (hv : sp.particle_velocity ≠ 0) (hp : sp.grating_period ≠ 0)
    (hlo : -(Int.tdiv (sp.number_of_rows_fourier_coefficient_array - 1) 2) ≤ n)
    (hhi : n ≤ Int.tdiv (sp.number_of_rows_fourier_coefficient_array - 1) 2) :
    (real_and_imaginary_arrays_generator (fun _ => 0) 1 z sp).array
        (orderIndex sp.number_of_rows_fourier_coefficient_array n)
      = claimed_slot_real sp z n ∧
    (real_and_imaginary_arrays_generator (fun _ => 0) 2 z sp).array
        (orderIndex sp.number_of_rows_fourier_coefficient_array n)
      = claimed_slot_imag sp z n := by
  constructor
  · rw [generator_slot (Or.inl rfl) sp z n h1 hlo hhi]
    norm_num [claimed_slot_real, innerOrderSum, trigOf, termPhase, fc]
  · rw [generator_slot (Or.inr rfl) sp z n h1 hlo hhi]
    norm_num [claimed_slot_imag, innerOrderSum, trigOf, termPhase, fc]

/-- Witness for C1 at the concrete bundle `spA` (N = 3), order n = 0. -/
theorem claim_C1_witness :
    (real_and_imaginary_arrays_generator (fun _ => 0) 1 0 spA).array
        (orderIndex spA.number_of_rows_fourier_coefficient_array 0)
      = claimed_slot_real spA 0 0 ∧
    (real_and_imaginary_arrays_generator (fun _ => 0) 2 0 spA).array
        (orderIndex spA.number_of_rows_fourier_coefficient_array 0)
      = claimed_slot_imag spA 0 0 :=
  claim_C1_slot_values spA 0 0 ⟨1, by decide⟩ (by decide) (by norm_num [spA])
    (by norm_num [spA]) (by norm_num [spA]) (by decide) (by decide)

/-- C6: with a degenerate sampling range (`x_min ≥ x_max`) the double loop
accumulates nothing, the normalization division by the resolution still
happens on every slot `0..N-1`, and a zero-initialized array is all-zero
afterwards. -/
theorem claim_C6_degenerate_range (sp : SimulationParameters) (z : ℝ) (mode : ℤ)
    (hx : x_min sp ≥ x_max sp) :
    (∀ a : ℤ → ℝ,
      (doubleLoop sp mode (phase_gravity sp z) ⟨a, none⟩).array = a) ∧
    (∀ (a : ℤ → ℝ) (i : ℤ),
      (real_and_imaginary_arrays_generator a mode z sp).array i
        = if 0 ≤ i ∧ i ≤ sp.number_of_rows_fourier_coefficient_array - 1 then
            a i / sp.resolution
          else a i) ∧
    (∀ i : ℤ,
      (real_and_imaginary_arrays_generator (fun _ => 0) mode z sp).array i = 0) := by
  have h0 : numSamples sp = 0 := numSamples_eq_zero sp hx
  have hdl : ∀ a : ℤ → ℝ,
      (doubleLoop sp mode (phase_gravity sp z) ⟨a, none⟩).array = a := by
    intro a
    rw [doubleLoop_id sp h0]
  have hgen : ∀ (a : ℤ → ℝ) (i : ℤ),
      (real_and_imaginary_arrays_generator a mode z sp).array i
        = if 0 ≤ i ∧ i ≤ sp.number_of_rows_fourier_coefficient_array - 1 then
            a i / sp.resolution
          else a i := by
    intro a i
    show normalize sp (doubleLoop sp mode (phase_gravity sp z) ⟨a, none⟩).array i = _
    rw [hdl a, normalize_apply]
  refine ⟨hdl, hgen, fun i => ?_⟩
  rw [hgen (fun _ => 0) i]
  split_ifs <;> simp

/-- Witness for C6 at the concrete bundle `spB` (x_min = 1 > -1 = x_max),
REAL mode. -/
theorem claim_C6_witness :
    (∀ a : ℤ → ℝ,
      (doubleLoop spB 1 (phase_gravity spB 0) ⟨a, none⟩).array = a) ∧
    (∀ (a : ℤ → ℝ) (i : ℤ),
      (real_and_imaginary_arrays_generator a 1 0 spB).array i
        = if 0 ≤ i ∧ i ≤ spB.number_of_rows_fourier_coefficient_array - 1 then
            a i / spB.resolution
          else a i) ∧
    (∀ i : ℤ,
      (real_and_imaginary_arrays_generator (fun _ => 0) 1 0 spB).array i = 0) :=
  claim_C6_degenerate_range spB 0 1 (by norm_num [x_min, x_max, spB])

/-- C7: the two diagnostic lines are written exactly when the mode is REAL
(never in IMAGINARY mode), carrying the format strings of lines 141-142,
the scalar gravitational phase of the call, and the Van der Waals value of
the final inner-loop iteration only. -/
theorem claim_C7_diagnostics (sp : SimulationParameters) (z : ℝ) (a : ℤ → ℝ)
    (hN : 1 ≤ sp.number_of_rows_fourier_coefficient_array)
    (hs : 0 < numSamples sp) :
    (∀ mode : ℤ,
      ((real_and_imaginary_arrays_generator a mode z sp).printed).length = 2 ↔ mode = 1) ∧
    (real_and_imaginary_arrays_generator a 1 z sp).printed
      = [(gravity_line, some (phase_gravity sp z)),
         (vdw_line, some (phase_van_der_waals_value sp (x_max sp)
            (samplePos sp (numSamples sp - 1))))] ∧
    (real_and_imaginary_arrays_generator a 2 z sp).printed = [] := by
  refine ⟨fun mode => ?_, ?_, ?_⟩
  · constructor
    · intro hlen
      by_contra hm
      simp [real_and_imaginary_arrays_generator, hm] at hlen
    · rintro rfl
      simp [real_and_imaginary_arrays_generator]
  · have hpr : (real_and_imaginary_arrays_generator a 1 z sp).printed
        = [(gravity_line, some (phase_gravity sp z)),
           (vdw_line, (doubleLoop sp 1 (phase_gravity sp z)
              ⟨a, none⟩).phase_van_der_waals)] := rfl
    rw [hpr, doubleLoop_vdw sp (phase_gravity sp z) hs hN]
  · rfl

/-- Witness for C7 at the concrete bundle `spA` (two inner samples). -/
theorem claim_C7_witness :
    (∀ mode : ℤ,
      ((real_and_imaginary_arrays_generator (fun _ => 0) mode 0 spA).printed).length = 2
        ↔ mode = 1) ∧
    (real_and_imaginary_arrays_generator (fun _ => 0) 1 0 spA).printed
      = [(gravity_line, some (phase_gravity spA 0)),
         (vdw_line, some (phase_van_der_waals_value spA (x_max spA)
            (samplePos spA (numSamples spA - 1))))] ∧
    (real_and_imaginary_arrays_generator (fun _ => 0) 2 0 spA).printed = [] :=
  claim_C7_diagnostics spA 0 (fun _ => 0) (by decide)
    (by
      unfold numSamples
      rw [if_pos (by norm_num [sampleStep, spA])]
      rw [Nat.ceil_pos]
      norm_num [x_min, x_max, sampleStep, spA])

/-- C9: for any mode other than 1 and 2 the call accumulates nothing and
prints nothing, but the normalization loop still divides every slot
`0..N-1` of the caller array by the resolution. -/
theorem claim_C9_unknown_mode (sp : SimulationParameters) (z : ℝ) (mode : ℤ)
    (h1 : mode ≠ 1) (h2 : mode ≠ 2) :
    (∀ a : ℤ → ℝ,
      (doubleLoop sp mode (phase_gravity sp z) ⟨a, none⟩).array = a) ∧
    (∀ (a : ℤ → ℝ) (i : ℤ),
      (real_and_imaginary_arrays_generator a mode z sp).array i
        = if 0 ≤ i ∧ i ≤ sp.number_of_rows_fourier_coefficient_array - 1 then
            a i / sp.resolution
          else a i) ∧
    (∀ a : ℤ → ℝ,
      (real_and_imaginary_arrays_generator a mode z sp).printed = []) := by
  have hdl : ∀ a : ℤ → ℝ,
      (doubleLoop sp mode (phase_gravity sp z) ⟨a, none⟩).array = a := by
    intro a
    exact orderFold_array_other h1 h2 sp (phase_gravity sp z) _ _
  refine ⟨hdl, fun a i => ?_, fun a => ?_⟩
  · show normalize sp (doubleLoop sp mode (phase_gravity sp z) ⟨a, none⟩).array i = _
    rw [hdl a, normalize_apply]
  · show (if mode = 1 then _ else []) = _
    rw [if_neg h1]

/-- Witness for C9 at mode 3 and the concrete bundle `spA`. -/
theorem claim_C9_witness :
    (∀ a : ℤ → ℝ,
      (doubleLoop spA 3 (phase_gravity spA 0) ⟨a, none⟩).array = a) ∧
    (∀ (a : ℤ → ℝ) (i : ℤ),
      (real_and_imaginary_arrays_generator a 3 0 spA).array i
        = if 0 ≤ i ∧ i ≤ spA.number_of_rows_fourier_coefficient_array - 1 then
            a i / spA.resolution
          else a i) ∧
    (∀ a : ℤ → ℝ,
      (real_and_imaginary_arrays_generator a 3 0 spA).printed = []) :=
  claim_C9_unknown_mode spA 0 3 (by decide) (by decide)

/-- C10: when the derived bounds make the inner loop run zero times
(`x_min ≥ x_max`) and the mode is REAL, the local variable
`phase_van_der_waals` is never assigned during the call (it stays `none`
in the model), yet the Van der Waals diagnostic line prints it — an
uninitialized read. -/
theorem claim_C10_uninitialized_read (sp : SimulationParameters) (z : ℝ) (a : ℤ → ℝ)
    (hx : x_min sp ≥ x_max sp) :
    (real_and_imaginary_arrays_generator a 1 z sp).phase_van_der_waals_out = none ∧
    (real_and_imaginary_arrays_generator a 1 z sp).printed
      = [(gravity_line, some (phase_gravity sp z)), (vdw_line, none)] := by
  have h0 : numSamples sp = 0 := numSamples_eq_zero sp hx
  have hdl : doubleLoop sp 1 (phase_gravity sp z) ⟨a, none⟩ = ⟨a, none⟩ :=
    doubleLoop_id sp h0 1 (phase_gravity sp z) _
  constructor
  · show (doubleLoop sp 1 (phase_gravity sp z) ⟨a, none⟩).phase_van_der_waals = none
    rw [hdl]
  · have hpr : (real_and_imaginary_arrays_generator a 1 z sp).printed
        = [(gravity_line, some (phase_gravity sp z)),
           (vdw_line, (doubleLoop sp 1 (phase_gravity sp z)
              ⟨a, none⟩).phase_van_der_waals)] := rfl
    rw [hpr, hdl]

/-- Witness for C10 at the concrete bundle `spB`. -/
theorem claim_C10_witness :
    (real_and_imaginary_arrays_generator (fun _ => 0) 1 0 spB).phase_van_der_waals_out
      = none ∧
    (real_and_imaginary_arrays_generator (fun _ => 0) 1 0 spB).printed
      = [(gravity_line, some (phase_gravity spB 0)), (vdw_line, none)] :=
  claim_C10_uninitialized_read spB 0 (fun _ => 0) (by norm_num [x_min, x_max, spB])

end PhaseShifts
